import Mathlib

/-!
Verification of the Expense-Tracker forecasting core (`src/app.py`).

Shallow embedding conventions:
* A calendar date is a `Nat` counting days from a fixed epoch whose day 0 is
  a Monday, so pandas weekly periods (`to_period('W')`, i.e. Monday–Sunday
  weeks) are the blocks `[7k, 7k+6]`, and their `to_timestamp()` week-start
  is `weekStart d = d - d % 7`.  A day `d` is a Sunday iff `d % 7 = 6`.
* Amounts read from storage are loosely typed; `pd.to_numeric(errors='coerce')`
  is embedded by `amount : Option ℚ`, where `none` is a value that fails
  numeric parsing and is coerced to `0` (`.fillna(0)`).
* Monetary values and model outputs are exact rationals `ℚ` (the standard
  idealisation of Python floats); `round(x, k)` / `.round(k)` (Python and
  numpy bankers rounding) is embedded by `round2` / `round1` below with
  round-half-to-even ties.
* The fitted Holt-Winters predictor (`ExponentialSmoothing(...).fit(...)
  .forecast`) lives in statsmodels, outside this repository; it is treated as
  an abstract deterministic function `FitFn` of the weekly series, the
  `seasonal_periods` argument, and the forecast step index, exactly the data
  the source passes to it.  `forecast(n)` returns one value per step, so the
  raw forecast is the map of the predictor over the 4 step indices.
-/

/-- A stored transaction row, as `read_data` returns it: a valid date,
a category string, a loosely-typed amount (`none` = fails numeric parsing),
and a free-text description. -/
structure Txn where
  date : Nat
  category : String
  amount : Option ℚ
  description : String
deriving DecidableEq

/-- Embeds `pd.to_numeric(df["amount"], errors='coerce').fillna(0)` applied to
one row: an unparseable amount becomes `0`. -/
def coercedAmount (t : Txn) : ℚ := t.amount.getD 0

/-- The week-start (Monday) of the Monday–Sunday week containing day `d`;
embeds `df['date'].dt.to_period('W')` followed by `.to_timestamp()`. -/
def weekStart (d : Nat) : Nat := d - d % 7

/-- Insert a week-start into an ascending duplicate-free list of week-starts;
building block for the sorted index that `groupby('week')` produces. -/
def insertWeek (x : Nat) : List Nat → List Nat
  | [] => [x]
  | y :: ys =>
    if x < y then x :: y :: ys
    else if x = y then y :: ys
    else y :: insertWeek x ys

/-- The ascending list of distinct week-starts present in the ledger:
the index of `df.groupby('week')['amount'].sum()`. -/
def sortedWeeks (l : List Txn) : List Nat :=
  l.foldr (fun t acc => insertWeek (weekStart t.date) acc) []

/-- Total (coercion-filled) amount of the transactions in the week starting
at `w`: one group's sum in `df.groupby('week')['amount'].sum()`. -/
def weekSum (l : List Txn) (w : Nat) : ℚ :=
  ((l.filter (fun t => weekStart t.date = w)).map coercedAmount).sum

/-- The weekly series of `prepare_data_for_forecast(method='weekly')`:
one `(week-start, summed amount)` entry per distinct week present in the
ledger, in ascending week order; absent weeks are absent from the index. -/
def weeklySeries (l : List Txn) : List (Nat × ℚ) :=
  (sortedWeeks l).map (fun w => (w, weekSum l w))

/-- Embeds `(data == 0).sum()`: the number of present weeks whose summed
amount is exactly zero. -/
def zeroWeekCount (s : List (Nat × ℚ)) : Nat :=
  (s.filter (fun p => p.2 = 0)).length

/-- Round-half-to-even to the nearest integer, the tie rule of Python
`round` and numpy `.round`. -/
def roundHalfEven (x : ℚ) : ℤ :=
  if x - (⌊x⌋ : ℚ) < 1/2 then ⌊x⌋
  else if x - (⌊x⌋ : ℚ) > 1/2 then ⌊x⌋ + 1
  else if ⌊x⌋ % 2 = 0 then ⌊x⌋ else ⌊x⌋ + 1

/-- Embeds `round(x, 2)` / `.round(2)`. -/
def round2 (x : ℚ) : ℚ := (roundHalfEven (x * 100) : ℚ) / 100

/-- Embeds `round(x, 1)`. -/
def round1 (x : ℚ) : ℚ := (roundHalfEven (x * 10) : ℚ) / 10

/-- Embeds `min(4, len(data) // 2)`, the `seasonal_periods` argument of the
`ExponentialSmoothing` constructor. -/
def seasonalPeriods (L : Nat) : Nat := min 4 (L / 2)

/-- The first Sunday on or after day `d`: how `pd.date_range(..., freq='W')`
snaps its start to the `W-SUN` anchor. -/
def nextSunday (d : Nat) : Nat := d + (13 - d % 7) % 7

/-- Embeds `pd.date_range(start=data.index[-1] + pd.Timedelta(weeks=1),
periods=4, freq='W')`: 4 Sundays at 7-day spacing, the first being the first
Sunday on or after one week past the last historical week-start. -/
def forecastDates (lastWeek : Nat) : List Nat :=
  (List.range 4).map (fun i => nextSunday (lastWeek + 7) + 7 * i)

/-- Abstract deterministic Holt-Winters predictor: from the weekly series and
the `seasonal_periods` setting, the predicted value at each forecast step. -/
abbrev FitFn := List (Nat × ℚ) → Nat → Nat → ℚ

/-- Embeds `data.index[-1]`: the last (largest) week-start in the weekly
series; `0` as an out-of-domain fallback the source never reaches. -/
def lastHistWeek (l : List Txn) : Nat :=
  ((weeklySeries l).map Prod.fst).getLastD 0

/-- Embeds `model_fit.forecast(4)`: the raw (unrounded) predicted value at
each of the 4 forecast steps. -/
def rawForecast (fit : FitFn) (data : List (Nat × ℚ)) : List ℚ :=
  (List.range 4).map (fit data (seasonalPeriods data.length))

/-- The distinct categories appearing in the ledger: the group keys of
`history_df.groupby('category')`. -/
def pieCategories (l : List Txn) : List String :=
  (l.map (fun t => t.category)).eraseDups

/-- Total (coercion-filled) historical amount of one category: one group's
sum in `history_df.groupby('category')['amount'].sum()`. -/
def catTotal (l : List Txn) (c : String) : ℚ :=
  ((l.filter (fun t => t.category = c)).map coercedAmount).sum

/-- Embeds `cat_totals.sum()`: the grand total of the per-category sums. -/
def totalHistory (l : List Txn) : ℚ :=
  ((pieCategories l).map (catTotal l)).sum

/-- Embeds the category projection: when the grand total is positive, each
category's share of history times the forecast total, rounded to 2 decimals
(`(category_shares * total_predicted).round(2)`); otherwise empty. -/
def piePairs (l : List Txn) (totalPredicted : ℚ) : List (String × ℚ) :=
  if totalHistory l > 0 then
    (pieCategories l).map
      (fun c => (c, round2 (catTotal l c / totalHistory l * totalPredicted)))
  else []

/-- The successful forecast payload of `get_forecast` (constant fields
`forecast_period = "4 weeks"` and the model name are omitted). -/
structure ForecastResult where
  totalForecast : ℚ
  pie : List (String × ℚ)
  timeline : List (Nat × ℚ)
  dataPointsUsed : Nat
deriving DecidableEq

/-- The possible outcomes of `get_forecast`'s data-dependent paths. -/
inductive ForecastOutcome where
  | insufficientData (currentWeeks requiredWeeks : Nat)
  | poorDataQuality (zeroPercentage : ℚ)
  | success (r : ForecastResult)
deriving DecidableEq

/-- The forecasting core of `get_forecast` in `src/app.py`: build the weekly
series, gate on data sufficiency (`len(data) < 8`) and data quality
(`zero_pct > 0.5`), then fit and assemble the result exactly as the source
does. -/
def computeForecast (fit : FitFn) (l : List Txn) : ForecastOutcome :=
  let data := weeklySeries l
  if data.length < 8 then
    .insufficientData data.length 8
  else if ((zeroWeekCount data : ℚ) / (data.length : ℚ)) > 1/2 then
    .poorDataQuality (round1 ((zeroWeekCount data : ℚ) / (data.length : ℚ) * 100))
  else
    let values := rawForecast fit data
    let totalPredicted := round2 values.sum
    { totalForecast := totalPredicted
      pie := piePairs l totalPredicted
      timeline := (forecastDates (lastHistWeek l)).zip (values.map round2)
      dataPointsUsed := data.length : ForecastResult }
    |> ForecastOutcome.success

/-- Projection of an outcome to its success payload, if any. -/
def resultOf : ForecastOutcome → Option ForecastResult
  | .success r => some r
  | _ => none

/-- Whether an outcome is a successful forecast. -/
def isSuccess (o : ForecastOutcome) : Bool := (resultOf o).isSome

/-- The dates of the timeline of a successful outcome. -/
def timelineDatesOf (o : ForecastOutcome) : List Nat :=
  match o with
  | .success r => r.timeline.map Prod.fst
  | _ => []

/-- Embeds `read_data` at the granularity of the state model: the parsed
ledger currently in storage. -/
def readData (store : List Txn) : List Txn := store

/-- Insert a transaction into a date-sorted ledger (ingredient of
`save_data`'s `sort_values(by="date")`). -/
def insertByDate (t : Txn) : List Txn → List Txn
  | [] => [t]
  | u :: us => if t.date < u.date then t :: u :: us else u :: insertByDate t us

/-- Embeds `save_data`: the stored ledger is replaced by the written frame,
sorted by date. -/
def saveData (df : List Txn) : List Txn :=
  df.foldr insertByDate []

/-- The `POST /api/expenses` route at the state level: reads, appends, saves;
included to show that mutating routes do change the store. -/
def addExpenseRoute (store : List Txn) (t : Txn) : List Txn :=
  saveData (readData store ++ [t])

/-- The `/api/forecast` route at the state level: it only ever reads the
store (`read_data` twice, never `save_data`), so it returns the outcome
alongside the unchanged store. -/
def getForecastRoute (fit : FitFn) (store : List Txn) :
    ForecastOutcome × List Txn :=
  (computeForecast fit (readData store), store)

/-- Embeds replacing a row's loosely-typed amount by its numeric coercion. -/
def coerceTxn (t : Txn) : Txn :=
  { t with amount := some (coercedAmount t) }

/-- Embeds `daily_expense.replace(0, np.nan)`: an exactly-zero day sum
becomes a missing value (`none`). -/
def maskZeros (s : List ℚ) : List (Option ℚ) :=
  s.map (fun x => if x = 0 then none else some x)

/-- The present (non-missing) values of the centered 7-wide window around
index `i`, clipped at the series boundaries: the samples that
`rolling(window=7, min_periods=1, center=True)` averages at `i`. -/
def windowVals (s : List (Option ℚ)) (i : Nat) : List ℚ :=
  ((s.drop (i - 3)).take (min i 3 + 4)).filterMap id

/-- Embeds the centered rolling mean at one position: the mean of the
window's present samples, missing when the window holds none
(`min_periods=1`). -/
def rollingMean7 (s : List (Option ℚ)) (i : Nat) : Option ℚ :=
  let v := windowVals s i
  if v = [] then none else some (v.sum / (v.length : ℚ))

/-- Embeds `daily_expense.fillna(rolling_mean)`: each present entry is kept,
each missing entry is replaced by the rolling mean at its position (which may
itself be missing). -/
def prefill (s : List (Option ℚ)) : List (Option ℚ) :=
  (List.range s.length).map (fun i =>
    match s.get? i with
    | some (some x) => some x
    | _ => rollingMean7 s i)

/-- Embeds `.mean()` of a pandas series: the mean of the present values,
missing (NaN) when there are none. -/
def meanOpt (s : List (Option ℚ)) : Option ℚ :=
  let v := s.filterMap id
  if v = [] then none else some (v.sum / (v.length : ℚ))

/-- The gap-filling pass of `prepare_data_for_forecast` (daily mode) after
reindexing: mask zeros, fill from the centered rolling mean, then fill what
is left from the global mean of the partly filled series. -/
def fillDaily (sums : List ℚ) : List (Option ℚ) :=
  let s2 := prefill (maskZeros sums)
  s2.map (fun x => x.orElse (fun _ => meanOpt s2))

/-- The dates of the ledger's transactions. -/
def datesOf (l : List Txn) : List Nat := l.map (fun t => t.date)

/-- Earliest transaction date (`daily_expense.index.min()`); `0` for the
empty ledger, where the source never reaches this point. -/
def minDate (l : List Txn) : Nat :=
  match datesOf l with
  | [] => 0
  | d :: ds => ds.foldl min d

/-- Latest transaction date (`daily_expense.index.max()`). -/
def maxDate (l : List Txn) : Nat :=
  match datesOf l with
  | [] => 0
  | d :: ds => ds.foldl max d

/-- Total (coercion-filled) amount of the transactions dated `d`: one
group's sum in `df.groupby("date")["amount"].sum()`. -/
def daySum (l : List Txn) (d : Nat) : ℚ :=
  ((l.filter (fun t => t.date = d)).map coercedAmount).sum

/-- The reindexed daily sums over the contiguous range from the earliest to
the latest observed date (`reindex(date_range(min, max, freq='D'),
fill_value=0)`). -/
def dailySums (l : List Txn) : List ℚ :=
  (List.range (maxDate l - minDate l + 1)).map (fun i => daySum l (minDate l + i))

/-- The daily series of `prepare_data_for_forecast(method='daily')`: entry
`i` is the value at date `minDate l + i`; `none` is a NaN entry. -/
def dailySeries (l : List Txn) : List (Option ℚ) :=
  if l = [] then [] else fillDaily (dailySums l)

/-! ### General lemmas about the embedded operations -/

theorem abs_roundHalfEven_sub_le (y : ℚ) : |(roundHalfEven y : ℚ) - y| ≤ 1/2 := by
  have h1 : ((⌊y⌋ : ℤ) : ℚ) ≤ y := Int.floor_le y
  have h2 : y < ((⌊y⌋ : ℤ) : ℚ) + 1 := Int.lt_floor_add_one y
  unfold roundHalfEven
  split_ifs with hlt hgt hev
  · rw [abs_le]; constructor <;> linarith
  · push_cast
    rw [abs_le]; constructor <;> linarith
  · rw [not_lt] at hlt
    rw [abs_le]; constructor <;> linarith
  · rw [not_lt] at hgt
    push_cast
    rw [abs_le]; constructor <;> linarith

theorem round2_close (x : ℚ) : |round2 x - x| ≤ 1/200 := by
  have h := abs_roundHalfEven_sub_le (x * 100)
  unfold round2
  have he : (roundHalfEven (x * 100) : ℚ) / 100 - x
      = ((roundHalfEven (x * 100) : ℚ) - x * 100) / 100 := by ring
  rw [he, abs_div]
  have h100 : |(100 : ℚ)| = 100 := by norm_num
  rw [h100]
  linarith

theorem weekStart_mod7 (d : Nat) : weekStart d % 7 = 0 := by
  unfold weekStart; omega

theorem insertWeek_mem (x y : Nat) (xs : List Nat) :
    y ∈ insertWeek x xs ↔ y = x ∨ y ∈ xs := by
  induction xs with
  | nil => simp [insertWeek]
  | cons z zs ih =>
    unfold insertWeek
    split_ifs with hlt heq
    · exact List.mem_cons
    · subst heq
      constructor
      · exact fun h => Or.inr h
      · rintro (rfl | h)
        · exact List.mem_cons_self _ _
        · exact h
    · simp only [List.mem_cons, ih]
      tauto

theorem insertWeek_pairwise (x : Nat) (xs : List Nat)
    (h : xs.Pairwise (· < ·)) : (insertWeek x xs).Pairwise (· < ·) := by
  induction xs with
  | nil => simp [insertWeek]
  | cons z zs ih =>
    rw [List.pairwise_cons] at h
    obtain ⟨hz, hzs⟩ := h
    unfold insertWeek
    split_ifs with hlt heq
    · refine List.pairwise_cons.mpr ⟨?_, List.pairwise_cons.mpr ⟨hz, hzs⟩⟩
      intro a ha
      rcases List.mem_cons.mp ha with h | h
      · omega
      · have := hz a h; omega
    · exact List.pairwise_cons.mpr ⟨hz, hzs⟩
    · refine List.pairwise_cons.mpr ⟨?_, ih hzs⟩
      intro a ha
      rcases (insertWeek_mem x a zs).mp ha with h | h
      · omega
      · exact hz a h

theorem sortedWeeks_cons (t : Txn) (l : List Txn) :
    sortedWeeks (t :: l) = insertWeek (weekStart t.date) (sortedWeeks l) := rfl

theorem sortedWeeks_pairwise (l : List Txn) :
    (sortedWeeks l).Pairwise (· < ·) := by
  induction l with
  | nil => simp [sortedWeeks]
  | cons t ts ih => rw [sortedWeeks_cons]; exact insertWeek_pairwise _ _ ih

theorem sortedWeeks_nodup (l : List Txn) : (sortedWeeks l).Nodup :=
  (sortedWeeks_pairwise l).imp (fun h => Nat.ne_of_lt h)

theorem mem_sortedWeeks (l : List Txn) (w : Nat) :
    w ∈ sortedWeeks l ↔ ∃ t ∈ l, weekStart t.date = w := by
  induction l with
  | nil => simp [sortedWeeks]
  | cons t ts ih =>
    rw [sortedWeeks_cons, insertWeek_mem]
    simp only [List.mem_cons, ih]
    constructor
    · rintro (h | ⟨u, hu, hw⟩)
      · exact ⟨t, Or.inl rfl, h.symm⟩
      · exact ⟨u, Or.inr hu, hw⟩
    · rintro ⟨u, hu | hu, hw⟩
      · subst hu; exact Or.inl hw.symm
      · exact Or.inr ⟨u, hu, hw⟩

theorem sortedWeeks_mod7 (l : List Txn) (w : Nat) (h : w ∈ sortedWeeks l) :
    w % 7 = 0 := by
  obtain ⟨t, _, hw⟩ := (mem_sortedWeeks l w).mp h
  rw [← hw]; exact weekStart_mod7 t.date

theorem getLastD_mem (l : List Nat) (d : Nat) (h : l ≠ []) : l.getLastD d ∈ l := by
  induction l generalizing d with
  | nil => exact absurd rfl h
  | cons x xs ih =>
    cases xs with
    | nil => simp [List.getLastD]
    | cons y ys =>
      have := ih x (by simp)
      simp only [List.getLastD] at this ⊢
      exact List.mem_cons_of_mem x this

theorem weeklySeries_fst (l : List Txn) :
    (weeklySeries l).map Prod.fst = sortedWeeks l := by
  unfold weeklySeries
  rw [List.map_map]
  have hid : (Prod.fst ∘ fun w : Nat => (w, weekSum l w)) = id := rfl
  rw [hid, List.map_id]

theorem weeklySeries_length (l : List Txn) :
    (weeklySeries l).length = (sortedWeeks l).length := by
  unfold weeklySeries; rw [List.length_map]

theorem rawForecast_length (fit : FitFn) (data : List (Nat × ℚ)) :
    (rawForecast fit data).length = 4 := by
  unfold rawForecast; rw [List.length_map, List.length_range]

theorem forecastDates_eq (w : Nat) :
    forecastDates w = [nextSunday (w + 7), nextSunday (w + 7) + 7,
      nextSunday (w + 7) + 14, nextSunday (w + 7) + 21] := by
  unfold forecastDates
  rfl

theorem lastHistWeek_mod7 (l : List Txn) (h : (weeklySeries l).length ≠ 0) :
    lastHistWeek l % 7 = 0 := by
  unfold lastHistWeek
  rw [weeklySeries_fst]
  refine sortedWeeks_mod7 l _ (getLastD_mem _ 0 ?_)
  rw [weeklySeries_length] at h
  exact fun hnil => h (by rw [hnil]; rfl)

/-! ### Concrete fixtures used by counterexamples and witnesses -/

/-- A constant predictor: every forecast step predicts 1. -/
def cexFit : FitFn := fun _ _ _ => 1

/-- A second constant predictor, used to show fit-independence of error
paths. -/
def altFit : FitFn := fun _ _ _ => 2

/-- A predictor that always predicts a negative spend. -/
def negFit : FitFn := fun _ _ _ => -100

/-- Eight weekly transactions of 10 on Mondays 0, 7, ..., 49: a minimal
ledger that passes both the sufficiency and the quality gate. -/
def cexLedger8 : List Txn :=
  [⟨0, "Food", some 10, ""⟩, ⟨7, "Food", some 10, ""⟩, ⟨14, "Food", some 10, ""⟩,
   ⟨21, "Food", some 10, ""⟩, ⟨28, "Food", some 10, ""⟩, ⟨35, "Food", some 10, ""⟩,
   ⟨42, "Food", some 10, ""⟩, ⟨49, "Food", some 10, ""⟩]

/-- The forecast `get_forecast` produces on `cexLedger8` with `cexFit`. -/
def cexResult8 : ForecastResult :=
  { totalForecast := 4
    pie := [("Food", 4)]
    timeline := [(62, 1), (69, 1), (76, 1), (83, 1)]
    dataPointsUsed := 8 }

/-- A one-transaction ledger: exactly one distinct week. -/
def smallLedger : List Txn := [⟨3, "Food", some 5, ""⟩]

/-- Eight weeks of which five have an exactly-zero sum (their only
transaction has an unparseable amount, coerced to 0). -/
def poorLedger : List Txn :=
  [⟨0, "Food", some 10, ""⟩, ⟨7, "Food", some 10, ""⟩, ⟨14, "Food", some 10, ""⟩,
   ⟨21, "Food", none, ""⟩, ⟨28, "Food", none, ""⟩, ⟨35, "Food", none, ""⟩,
   ⟨42, "Food", none, ""⟩, ⟨49, "Food", none, ""⟩]

theorem computeForecast_eq_success (fit : FitFn) (l : List Txn)
    (r : ForecastResult) (h : computeForecast fit l = .success r) :
    8 ≤ (weeklySeries l).length ∧
    ¬ ((zeroWeekCount (weeklySeries l) : ℚ) / ((weeklySeries l).length : ℚ) > 1/2) ∧
    r = { totalForecast := round2 (rawForecast fit (weeklySeries l)).sum
          pie := piePairs l (round2 (rawForecast fit (weeklySeries l)).sum)
          timeline := (forecastDates (lastHistWeek l)).zip
                        ((rawForecast fit (weeklySeries l)).map round2)
          dataPointsUsed := (weeklySeries l).length } := by
  simp only [computeForecast] at h
  by_cases h1 : (weeklySeries l).length < 8
  · rw [if_pos h1] at h
    exact absurd h (by simp)
  · rw [if_neg h1] at h
    by_cases h2 :
        ((zeroWeekCount (weeklySeries l) : ℚ) / ((weeklySeries l).length : ℚ)) > 1/2
    · rw [if_pos h2] at h
      exact absurd h (by simp)
    · rw [if_neg h2] at h
      refine ⟨Nat.not_lt.mp h1, h2, ?_⟩
      injection h with h
      exact h.symm

/-! ### C1 — timeline shape -/

/-- C1 (amended): for every successful forecast the timeline contains
exactly 4 points whose dates are each exactly 7 days apart, but the first
date is 13 days after the last historical week-start — `pd.date_range` with
`freq='W'` snaps the Monday start `last + 7` forward to the `W-SUN` anchor —
not 7 days after it as the claim states. -/
theorem forecast_timeline_shape (fit : FitFn) (l : List Txn)
    (r : ForecastResult) (h : computeForecast fit l = .success r) :
    r.timeline.map Prod.fst = [lastHistWeek l + 13, lastHistWeek l + 20,
      lastHistWeek l + 27, lastHistWeek l + 34]
    ∧ r.timeline.length = 4 := by
  obtain ⟨h8, hq, hr⟩ := computeForecast_eq_success fit l r h
  subst hr
  have hlen0 : (weeklySeries l).length ≠ 0 := by omega
  have hmod : lastHistWeek l % 7 = 0 := lastHistWeek_mod7 l hlen0
  have hN : nextSunday (lastHistWeek l + 7) = lastHistWeek l + 13 := by
    unfold nextSunday; omega
  have hlens : (forecastDates (lastHistWeek l)).length
      = ((rawForecast fit (weeklySeries l)).map round2).length := by
    rw [List.length_map, rawForecast_length, forecastDates_eq]
    rfl
  constructor
  · rw [List.map_fst_zip _ _ (le_of_eq hlens), forecastDates_eq, hN]
  · rw [List.length_zip, ← hlens, Nat.min_self, forecastDates_eq]
    rfl

/-- C1 counterexample at a concrete input: with eight weekly transactions
whose last week starts on day 49, the first timeline date is 62 = 49 + 13,
not 49 + 7 = 56. -/
theorem forecast_timeline_shape_counterexample :
    timelineDatesOf (computeForecast cexFit cexLedger8) = [62, 69, 76, 83]
    ∧ lastHistWeek cexLedger8 = 49
    ∧ (62 : Nat) ≠ 49 + 7 := by
  refine ⟨by decide!, by decide!, by decide⟩

/-- C1 witness: the amended timeline shape at a concrete successful
forecast. -/
theorem forecast_timeline_shape_witness :
    computeForecast cexFit cexLedger8 = .success cexResult8
    ∧ cexResult8.timeline.map Prod.fst
        = [lastHistWeek cexLedger8 + 13, lastHistWeek cexLedger8 + 20,
           lastHistWeek cexLedger8 + 27, lastHistWeek cexLedger8 + 34]
    ∧ cexResult8.timeline.length = 4 := by
  have h : computeForecast cexFit cexLedger8 = .success cexResult8 := by decide!
  obtain ⟨h1, h2⟩ := forecast_timeline_shape cexFit cexLedger8 cexResult8 h
  exact ⟨h, h1, h2⟩

/-! ### C2 — insufficient data -/

/-- C2: a ledger spanning fewer than 8 distinct weeks (the length of the
weekly series, which indexes exactly the distinct week-starts present, with
no duplicates) yields the `insufficient_data` error carrying that exact
count and the constant 8; the outcome does not depend on the model fit, and
the empty ledger has count 0. -/
theorem insufficient_weeks (fit fit2 : FitFn) (l : List Txn)
    (h : (weeklySeries l).length < 8) :
    computeForecast fit l = .insufficientData (weeklySeries l).length 8
    ∧ computeForecast fit l = computeForecast fit2 l
    ∧ (weeklySeries l).length = (sortedWeeks l).length
    ∧ (sortedWeeks l).Nodup
    ∧ (∀ w, w ∈ sortedWeeks l ↔ ∃ t ∈ l, weekStart t.date = w)
    ∧ (l = [] → (weeklySeries l).length = 0) := by
  have he : computeForecast fit l = .insufficientData (weeklySeries l).length 8 := by
    simp only [computeForecast]
    rw [if_pos h]
  have he2 : computeForecast fit2 l = .insufficientData (weeklySeries l).length 8 := by
    simp only [computeForecast]
    rw [if_pos h]
  refine ⟨he, he.trans he2.symm, weeklySeries_length l, sortedWeeks_nodup l,
    mem_sortedWeeks l, ?_⟩
  rintro rfl
  rfl

/-- C2 witness: a one-week ledger reports `insufficient_data` with
current = 1, independently of the fit, and the empty ledger reports
current = 0. -/
theorem insufficient_weeks_witness :
    (weeklySeries smallLedger).length < 8
    ∧ computeForecast cexFit smallLedger = .insufficientData 1 8
    ∧ computeForecast cexFit smallLedger = computeForecast altFit smallLedger
    ∧ computeForecast cexFit ([] : List Txn) = .insufficientData 0 8 := by
  have h1 : (weeklySeries smallLedger).length < 8 := by decide!
  obtain ⟨a, b, _, _, _, _⟩ := insufficient_weeks cexFit altFit smallLedger h1
  have h0 : (weeklySeries ([] : List Txn)).length < 8 := by decide
  obtain ⟨a0, _, _, _, _, hemp⟩ := insufficient_weeks cexFit altFit [] h0
  refine ⟨h1, ?_, b, ?_⟩
  · have hl : (weeklySeries smallLedger).length = 1 := by decide!
    rw [hl] at a
    exact a
  · rw [hemp rfl] at a0
    exact a0

/-! ### C3 — data-quality gate -/

/-- C3: once the sufficiency gate is passed, if strictly more than half of
the present weeks sum to exactly zero the outcome is `poor_data_quality`
carrying `(zero weeks / total present weeks) * 100` rounded to one decimal
(absent weeks are simply not in the series, hence counted in neither
number), and with at most half zero weeks the forecast proceeds to
success. -/
theorem quality_gate (fit : FitFn) (l : List Txn)
    (h8 : 8 ≤ (weeklySeries l).length) :
    ((weeklySeries l).length < 2 * zeroWeekCount (weeklySeries l) →
      computeForecast fit l = .poorDataQuality
        (round1 ((zeroWeekCount (weeklySeries l) : ℚ)
          / ((weeklySeries l).length : ℚ) * 100)))
    ∧ (2 * zeroWeekCount (weeklySeries l) ≤ (weeklySeries l).length →
      isSuccess (computeForecast fit l) = true) := by
  have hlen : (0:ℚ) < ((weeklySeries l).length : ℚ) := by
    have h0 : 0 < (weeklySeries l).length := by omega
    exact_mod_cast h0
  constructor
  · intro hz
    have hzq : ((weeklySeries l).length : ℚ)
        < 2 * (zeroWeekCount (weeklySeries l) : ℚ) := by exact_mod_cast hz
    have hcond : ((zeroWeekCount (weeklySeries l) : ℚ)
        / ((weeklySeries l).length : ℚ)) > 1/2 := by
      rw [gt_iff_lt, div_lt_div_iff₀ (by norm_num) hlen]
      linarith
    simp only [computeForecast]
    rw [if_neg (Nat.not_lt.mpr h8), if_pos hcond]
  · intro hz
    have hzq : 2 * (zeroWeekCount (weeklySeries l) : ℚ)
        ≤ ((weeklySeries l).length : ℚ) := by exact_mod_cast hz
    have hcond : ¬ ((zeroWeekCount (weeklySeries l) : ℚ)
        / ((weeklySeries l).length : ℚ)) > 1/2 := by
      rw [gt_iff_lt, not_lt, div_le_div_iff₀ hlen (by norm_num)]
      linarith
    simp only [isSuccess, resultOf, computeForecast]
    rw [if_neg (Nat.not_lt.mpr h8), if_neg hcond]
    rfl

/-- C3 witness: five of eight present weeks are zero (62.5% > 50%) and the
reported percentage is 62.5; with zero zero-weeks out of eight the gate
passes and the forecast succeeds. -/
theorem quality_gate_witness :
    computeForecast cexFit poorLedger = .poorDataQuality (125/2)
    ∧ isSuccess (computeForecast cexFit cexLedger8) = true := by
  constructor
  · have h8 : 8 ≤ (weeklySeries poorLedger).length := by decide!
    have hp := (quality_gate cexFit poorLedger h8).1 (by decide!)
    exact hp.trans (by decide!)
  · have h8 : 8 ≤ (weeklySeries cexLedger8).length := by decide!
    exact (quality_gate cexFit cexLedger8 h8).2 (by decide!)

/-! ### C4 — seasonal period -/

/-- C4: for every series of length `L ≥ 8` that reaches fitting, the
seasonal period handed to the smoothing model is `min 4 (L / 2)`, which is
4, never more than 4 and never more than half the length; and the outcome
depends on the predictor only through its values at that seasonal period. -/
theorem seasonal_period_spec (fit fit2 : FitFn) (l : List Txn)
    (h8 : 8 ≤ (weeklySeries l).length)
    (hagree : ∀ n, fit (weeklySeries l) (seasonalPeriods (weeklySeries l).length) n
      = fit2 (weeklySeries l) (seasonalPeriods (weeklySeries l).length) n) :
    seasonalPeriods (weeklySeries l).length = min 4 ((weeklySeries l).length / 2)
    ∧ seasonalPeriods (weeklySeries l).length = 4
    ∧ seasonalPeriods (weeklySeries l).length ≤ 4
    ∧ 2 * seasonalPeriods (weeklySeries l).length ≤ (weeklySeries l).length
    ∧ computeForecast fit l = computeForecast fit2 l := by
  have h4 : seasonalPeriods (weeklySeries l).length = 4 := by
    unfold seasonalPeriods; omega
  have hhalf : 2 * seasonalPeriods (weeklySeries l).length ≤ (weeklySeries l).length := by
    unfold seasonalPeriods; omega
  have hv : rawForecast fit (weeklySeries l) = rawForecast fit2 (weeklySeries l) := by
    unfold rawForecast
    exact List.map_congr_left (fun n _ => hagree n)
  refine ⟨rfl, h4, by omega, hhalf, ?_⟩
  simp only [computeForecast]
  rw [hv]

/-- C4 witness: at a concrete eight-week ledger the seasonal period is
`min 4 (8 / 2)` = 4 and at most half the length. -/
theorem seasonal_period_spec_witness :
    8 ≤ (weeklySeries cexLedger8).length
    ∧ seasonalPeriods (weeklySeries cexLedger8).length = 4
    ∧ 2 * seasonalPeriods (weeklySeries cexLedger8).length
        ≤ (weeklySeries cexLedger8).length := by
  have h8 : 8 ≤ (weeklySeries cexLedger8).length := by decide!
  have h := seasonal_period_spec cexFit cexFit cexLedger8 h8 (fun _ => rfl)
  exact ⟨h8, h.2.1, h.2.2.2.1⟩

/-! ### C5 — category pie projection -/

theorem sum_map_round2_err (vs : List ℚ) :
    |(vs.map round2).sum - vs.sum| ≤ (vs.length : ℚ) * (1/200) := by
  induction vs with
  | nil => simp
  | cons v vt ih =>
    simp only [List.map_cons, List.sum_cons, List.length_cons]
    have h1 := round2_close v
    have key : round2 v + (vt.map round2).sum - (v + vt.sum)
        = (round2 v - v) + ((vt.map round2).sum - vt.sum) := by ring
    calc |round2 v + (vt.map round2).sum - (v + vt.sum)|
        = |(round2 v - v) + ((vt.map round2).sum - vt.sum)| := by rw [key]
      _ ≤ |round2 v - v| + |(vt.map round2).sum - vt.sum| := abs_add _ _
      _ ≤ 1/200 + (vt.length : ℚ) * (1/200) := add_le_add h1 ih
      _ = ((vt.length : ℚ) + 1) * (1/200) := by ring
      _ = (((vt.length : Nat) + 1 : Nat) : ℚ) * (1/200) := by push_cast; ring

theorem sum_map_mul_const (cs : List String) (f : String → ℚ) (k : ℚ) :
    (cs.map (fun c => f c * k)).sum = (cs.map f).sum * k := by
  induction cs with
  | nil => simp
  | cons c ct ih =>
    simp only [List.map_cons, List.sum_cons, ih]
    ring

theorem sum_map_div_mul (cs : List String) (f : String → ℚ) (H T : ℚ) :
    (cs.map (fun c => f c / H * T)).sum = (cs.map f).sum / H * T := by
  induction cs with
  | nil => simp
  | cons c ct ih =>
    simp only [List.map_cons, List.sum_cons, ih]
    ring

/-- C5: for every successful forecast, when the historical grand total is
positive each category's pie value is `round2 (share * total_forecast)` and
the pie values sum to within `#categories * 0.005` of the forecast total;
when the grand total is zero the pie is empty (no division happens). -/
theorem pie_projection (fit : FitFn) (l : List Txn) (r : ForecastResult)
    (h : computeForecast fit l = .success r) :
    (0 < totalHistory l →
      r.pie = (pieCategories l).map
        (fun c => (c, round2 (catTotal l c / totalHistory l * r.totalForecast)))
      ∧ |(r.pie.map Prod.snd).sum - r.totalForecast|
          ≤ ((pieCategories l).length : ℚ) * (1/200))
    ∧ (totalHistory l = 0 → r.pie = []) := by
  obtain ⟨h8, hq, hr⟩ := computeForecast_eq_success fit l r h
  subst hr
  dsimp only
  constructor
  · intro hpos
    have hpie : piePairs l (round2 (rawForecast fit (weeklySeries l)).sum)
        = (pieCategories l).map (fun c =>
            (c, round2 (catTotal l c / totalHistory l
              * round2 (rawForecast fit (weeklySeries l)).sum))) := by
      unfold piePairs
      rw [if_pos hpos]
    refine ⟨hpie, ?_⟩
    rw [hpie, List.map_map]
    have hsnd : (Prod.snd ∘ fun c =>
        (c, round2 (catTotal l c / totalHistory l
          * round2 (rawForecast fit (weeklySeries l)).sum)))
        = (fun c => round2 (catTotal l c / totalHistory l
          * round2 (rawForecast fit (weeklySeries l)).sum)) := rfl
    rw [hsnd]
    have hmm : (pieCategories l).map (fun c => round2 (catTotal l c / totalHistory l
          * round2 (rawForecast fit (weeklySeries l)).sum))
        = ((pieCategories l).map (fun c => catTotal l c / totalHistory l
          * round2 (rawForecast fit (weeklySeries l)).sum)).map round2 := by
      rw [List.map_map]
      rfl
    rw [hmm]
    have hsum : ((pieCategories l).map (fun c => catTotal l c / totalHistory l
        * round2 (rawForecast fit (weeklySeries l)).sum)).sum
        = round2 (rawForecast fit (weeklySeries l)).sum := by
      rw [sum_map_div_mul (pieCategories l) (catTotal l) (totalHistory l)
        (round2 (rawForecast fit (weeklySeries l)).sum)]
      show totalHistory l / totalHistory l
        * round2 (rawForecast fit (weeklySeries l)).sum
        = round2 (rawForecast fit (weeklySeries l)).sum
      rw [div_self (ne_of_gt hpos), one_mul]
    have herr := sum_map_round2_err ((pieCategories l).map
      (fun c => catTotal l c / totalHistory l
        * round2 (rawForecast fit (weeklySeries l)).sum))
    rw [hsum, List.length_map] at herr
    exact herr
  · intro h0
    have hneg : ¬ totalHistory l > 0 := by rw [h0]; exact lt_irrefl 0
    unfold piePairs
    rw [if_neg hneg]

/-- Two-category eight-week ledger: seven Food weeks of 10 and one
Transport week of 30; history totals Food 70, Transport 30. -/
def pieLedger : List Txn :=
  [⟨0, "Food", some 10, ""⟩, ⟨7, "Food", some 10, ""⟩, ⟨14, "Food", some 10, ""⟩,
   ⟨21, "Food", some 10, ""⟩, ⟨28, "Food", some 10, ""⟩, ⟨35, "Food", some 10, ""⟩,
   ⟨42, "Food", some 10, ""⟩, ⟨49, "Transport", some 30, ""⟩]

/-- A constant predictor of 25 per week, so the forecast total is 100. -/
def pieFit : FitFn := fun _ _ _ => 25

/-- The forecast `get_forecast` produces on `pieLedger` with `pieFit`. -/
def pieResult : ForecastResult :=
  { totalForecast := 100
    pie := [("Food", 70), ("Transport", 30)]
    timeline := [(62, 25), (69, 25), (76, 25), (83, 25)]
    dataPointsUsed := 8 }

/-- C5 witness: on a two-category history (70% Food, 30% Transport) the
forecast total 100 is split into pie values 70 and 30, each equal to the
rounded share product, and their sum is within 2 * 0.005 of the total. -/
theorem pie_projection_witness :
    computeForecast pieFit pieLedger = .success pieResult
    ∧ 0 < totalHistory pieLedger
    ∧ pieResult.pie = (pieCategories pieLedger).map
        (fun c => (c, round2 (catTotal pieLedger c / totalHistory pieLedger
          * pieResult.totalForecast)))
    ∧ |(pieResult.pie.map Prod.snd).sum - pieResult.totalForecast|
        ≤ ((pieCategories pieLedger).length : ℚ) * (1/200) := by
  have h : computeForecast pieFit pieLedger = .success pieResult := by decide!
  have hpos : 0 < totalHistory pieLedger := by decide!
  obtain ⟨h1, h2⟩ := (pie_projection pieFit pieLedger pieResult h).1 hpos
  exact ⟨h, hpos, h1, h2⟩

/-! ### C7 — determinism -/

/-- C7: the forecast computation is a pure function of the ledger snapshot
and the (deterministic) fitted predictor: identical transaction data gives
identical outcome, hence identical total, timeline and pie. -/
theorem forecast_deterministic (fit : FitFn) (l1 l2 : List Txn) (h : l1 = l2) :
    computeForecast fit l1 = computeForecast fit l2
    ∧ (resultOf (computeForecast fit l1)).map (fun r => r.totalForecast)
        = (resultOf (computeForecast fit l2)).map (fun r => r.totalForecast)
    ∧ (resultOf (computeForecast fit l1)).map (fun r => r.timeline)
        = (resultOf (computeForecast fit l2)).map (fun r => r.timeline)
    ∧ (resultOf (computeForecast fit l1)).map (fun r => r.pie)
        = (resultOf (computeForecast fit l2)).map (fun r => r.pie) := by
  subst h
  exact ⟨rfl, rfl, rfl, rfl⟩

/-- C7 witness: two runs over the same concrete ledger agree. -/
theorem forecast_deterministic_witness :
    computeForecast cexFit cexLedger8 = computeForecast cexFit cexLedger8
    ∧ (resultOf (computeForecast cexFit cexLedger8)).map (fun r => r.totalForecast)
        = (resultOf (computeForecast cexFit cexLedger8)).map (fun r => r.totalForecast) :=
  ⟨(forecast_deterministic cexFit cexLedger8 cexLedger8 rfl).1,
   (forecast_deterministic cexFit cexLedger8 cexLedger8 rfl).2.1⟩

/-! ### C8 — forecasting never writes the store -/

/-- C8: the forecast route only reads: whatever the outcome (success or any
error), the stored ledger after the call is the ledger before it, and the
outcome is computed from the read snapshot alone. -/
theorem forecast_route_preserves_store (fit : FitFn) (store : List Txn) :
    (getForecastRoute fit store).2 = store
    ∧ (getForecastRoute fit store).1 = computeForecast fit (readData store) :=
  ⟨rfl, rfl⟩

/-! ### C9 — rounding and no clamping -/

/-- C9: each exposed timeline amount is the raw predicted value rounded to
two decimals, and the total is the sum of the raw values rounded to two
decimals; no non-negativity clamp is applied anywhere in between. -/
theorem forecast_rounding (fit : FitFn) (l : List Txn) (r : ForecastResult)
    (h : computeForecast fit l = .success r) :
    r.timeline.map Prod.snd = (rawForecast fit (weeklySeries l)).map round2
    ∧ r.totalForecast = round2 (rawForecast fit (weeklySeries l)).sum := by
  obtain ⟨h8, hq, hr⟩ := computeForecast_eq_success fit l r h
  subst hr
  dsimp only
  refine ⟨?_, rfl⟩
  apply List.map_snd_zip
  rw [List.length_map, rawForecast_length, forecastDates_eq]
  rfl

/-- The forecast `get_forecast` produces on `cexLedger8` with the negative
predictor `negFit`: every exposed amount is negative, unclamped. -/
def negResult : ForecastResult :=
  { totalForecast := -400
    pie := [("Food", -400)]
    timeline := [(62, -100), (69, -100), (76, -100), (83, -100)]
    dataPointsUsed := 8 }

/-- C9 witness: with a predictor that always answers -100, the timeline
exposes -100 at every step and the total is -400 — negative values pass
through the rounding untouched. -/
theorem forecast_rounding_witness :
    computeForecast negFit cexLedger8 = .success negResult
    ∧ negResult.timeline.map Prod.snd
        = (rawForecast negFit (weeklySeries cexLedger8)).map round2
    ∧ negResult.totalForecast
        = round2 (rawForecast negFit (weeklySeries cexLedger8)).sum
    ∧ negResult.totalForecast < 0
    ∧ (negResult.timeline.map Prod.snd).all (fun a => a < 0) = true := by
  have h : computeForecast negFit cexLedger8 = .success negResult := by decide!
  obtain ⟨h1, h2⟩ := forecast_rounding negFit cexLedger8 negResult h
  exact ⟨h, h1, h2, by decide!, by decide!⟩

/-! ### C10 — malformed amounts are coerced to zero -/

theorem coerce_amount (t : Txn) : coercedAmount (coerceTxn t) = coercedAmount t := rfl

theorem filter_map_coerce (p : Txn → Bool) (hp : ∀ t, p (coerceTxn t) = p t)
    (l : List Txn) :
    ((l.map coerceTxn).filter p).map coercedAmount
      = (l.filter p).map coercedAmount := by
  induction l with
  | nil => rfl
  | cons t ts ih =>
    cases hpt : p t <;>
      simp [List.filter_cons, hp, hpt, ih, coerce_amount]

theorem weekSum_coerce (l : List Txn) (w : Nat) :
    weekSum (l.map coerceTxn) w = weekSum l w := by
  unfold weekSum
  exact congrArg List.sum
    (filter_map_coerce (fun t => decide (weekStart t.date = w)) (fun t => rfl) l)

theorem catTotal_coerce (l : List Txn) (c : String) :
    catTotal (l.map coerceTxn) c = catTotal l c := by
  unfold catTotal
  exact congrArg List.sum
    (filter_map_coerce (fun t => decide (t.category = c)) (fun t => rfl) l)

theorem sortedWeeks_coerce (l : List Txn) :
    sortedWeeks (l.map coerceTxn) = sortedWeeks l := by
  induction l with
  | nil => rfl
  | cons t ts ih =>
    rw [List.map_cons, sortedWeeks_cons, sortedWeeks_cons, ih]
    rfl

theorem weeklySeries_coerce (l : List Txn) :
    weeklySeries (l.map coerceTxn) = weeklySeries l := by
  unfold weeklySeries
  rw [sortedWeeks_coerce]
  exact List.map_congr_left (fun w _ => by rw [weekSum_coerce])

theorem pieCategories_coerce (l : List Txn) :
    pieCategories (l.map coerceTxn) = pieCategories l := by
  unfold pieCategories
  rw [List.map_map]
  rfl

theorem totalHistory_coerce (l : List Txn) :
    totalHistory (l.map coerceTxn) = totalHistory l := by
  unfold totalHistory
  rw [pieCategories_coerce]
  exact congrArg List.sum (List.map_congr_left (fun c _ => catTotal_coerce l c))

theorem piePairs_coerce (l : List Txn) (T : ℚ) :
    piePairs (l.map coerceTxn) T = piePairs l T := by
  unfold piePairs
  rw [totalHistory_coerce, pieCategories_coerce]
  split_ifs with hpos
  · exact List.map_congr_left (fun c _ => by rw [catTotal_coerce])
  · rfl

theorem lastHistWeek_coerce (l : List Txn) :
    lastHistWeek (l.map coerceTxn) = lastHistWeek l := by
  unfold lastHistWeek
  rw [weeklySeries_coerce]

/-- C10: replacing every loosely-typed amount by its numeric coercion
(malformed becomes 0) changes nothing: the weekly series, the category
shares and hence the whole forecast outcome are identical, so no error can
arise solely from a malformed amount; and an unparseable amount is indeed
read as 0. -/
theorem malformed_amounts_coerced (fit : FitFn) (l : List Txn) :
    computeForecast fit (l.map coerceTxn) = computeForecast fit l
    ∧ weeklySeries (l.map coerceTxn) = weeklySeries l
    ∧ (∀ t : Txn, t.amount = none → coercedAmount t = 0) := by
  refine ⟨?_, weeklySeries_coerce l, ?_⟩
  · simp only [computeForecast]
    rw [weeklySeries_coerce, piePairs_coerce, lastHistWeek_coerce]
  · intro t ht
    unfold coercedAmount
    rw [ht]
    rfl

/-- A ledger containing one malformed amount next to a parseable one. -/
def malformedLedger : List Txn :=
  [⟨0, "Food", none, "x"⟩, ⟨1, "Transport", some 5, ""⟩]

/-- C10 witness: on a concrete ledger with a malformed amount, coercion
changes nothing and the malformed amount reads as 0. -/
theorem malformed_amounts_coerced_witness :
    computeForecast cexFit (malformedLedger.map coerceTxn)
      = computeForecast cexFit malformedLedger
    ∧ coercedAmount ⟨0, "Food", none, "x"⟩ = 0 := by
  obtain ⟨h1, _, h3⟩ := malformed_amounts_coerced cexFit malformedLedger
  exact ⟨h1, h3 _ rfl⟩

/-! ### C6 — daily-mode gap filling -/

theorem get?_some_lt {α : Type} {l : List α} {n : Nat} {a : α}
    (h : l.get? n = some a) : n < l.length := by
  rcases Nat.lt_or_ge n l.length with h1 | h1
  · exact h1
  · rw [List.get?_eq_none.mpr h1] at h
    cases h

theorem maskZeros_get? (s : List ℚ) (i : Nat) :
    (maskZeros s).get? i
      = (s.get? i).map (fun x => if x = 0 then none else some x) := by
  unfold maskZeros
  exact List.get?_map _ _ _

theorem maskZeros_length (s : List ℚ) : (maskZeros s).length = s.length := by
  unfold maskZeros
  exact List.length_map _ _

theorem prefill_length (s : List (Option ℚ)) : (prefill s).length = s.length := by
  unfold prefill
  rw [List.length_map, List.length_range]

theorem prefill_get? (s : List (Option ℚ)) (i : Nat) (hi : i < s.length) :
    (prefill s).get? i = some (match s.get? i with
      | some (some x) => some x
      | _ => rollingMean7 s i) := by
  unfold prefill
  rw [List.get?_map, List.get?_range hi]
  rfl

theorem fillDaily_length (sums : List ℚ) :
    (fillDaily sums).length = sums.length := by
  simp only [fillDaily]
  rw [List.length_map, prefill_length, maskZeros_length]

theorem fillDaily_get? (sums : List ℚ) (i : Nat) :
    (fillDaily sums).get? i
      = ((prefill (maskZeros sums)).get? i).map
          (fun x => x.orElse (fun _ => meanOpt (prefill (maskZeros sums)))) := by
  simp only [fillDaily]
  exact List.get?_map _ _ _

theorem dailySums_length (l : List Txn) :
    (dailySums l).length = maxDate l - minDate l + 1 := by
  unfold dailySums
  rw [List.length_map, List.length_range]

/-- C6 (amended): for every non-empty ledger in which at least one day's
grouped sum is nonzero, the daily series spans the contiguous range from
the earliest to the latest date, nonzero-sum days keep their sums, each
zero-sum day (gap days included) takes the centered 7-wide rolling mean when
the window has a present sample and the global mean of the partly filled
series otherwise, and every entry ends up resolved.  (For an all-zero
ledger the source leaves NaN entries, because the global mean of an
all-missing series is itself NaN — the claim as stated fails there.) -/
theorem daily_gap_fill (l : List Txn) (hne : l ≠ [])
    (hnz : ∃ v ∈ dailySums l, v ≠ 0) :
    (dailySeries l).length = maxDate l - minDate l + 1
    ∧ (∀ x ∈ dailySeries l, x.isSome = true)
    ∧ (∀ i v, (dailySums l).get? i = some v → v ≠ 0 →
        (dailySeries l).get? i = some (some v))
    ∧ (∀ i m, (dailySums l).get? i = some 0 →
        rollingMean7 (maskZeros (dailySums l)) i = some m →
        (dailySeries l).get? i = some (some m))
    ∧ (∀ i, (dailySums l).get? i = some 0 →
        rollingMean7 (maskZeros (dailySums l)) i = none →
        (dailySeries l).get? i
          = some (meanOpt (prefill (maskZeros (dailySums l))))) := by
  have hds : dailySeries l = fillDaily (dailySums l) := by
    unfold dailySeries
    rw [if_neg hne]
  obtain ⟨v, hv, hv0⟩ := hnz
  obtain ⟨j, hj⟩ := List.get?_of_mem hv
  have hjlt : j < (dailySums l).length := get?_some_lt hj
  have hs1j : (maskZeros (dailySums l)).get? j = some (some v) := by
    rw [maskZeros_get?, hj]
    show some (if v = 0 then none else some v) = some (some v)
    rw [if_neg hv0]
  have hs2j : (prefill (maskZeros (dailySums l))).get? j = some (some v) := by
    rw [prefill_get? _ _ (by rw [maskZeros_length]; exact hjlt), hs1j]
  have hmem2 : some v ∈ prefill (maskZeros (dailySums l)) := List.get?_mem hs2j
  have hgm : ∃ g, meanOpt (prefill (maskZeros (dailySums l))) = some g := by
    have hvmem : v ∈ (prefill (maskZeros (dailySums l))).filterMap id :=
      List.mem_filterMap.mpr ⟨some v, hmem2, rfl⟩
    have hne2 : (prefill (maskZeros (dailySums l))).filterMap id ≠ [] := by
      intro hc
      rw [hc] at hvmem
      cases hvmem
    simp only [meanOpt]
    rw [if_neg hne2]
    exact ⟨_, rfl⟩
  obtain ⟨g, hg⟩ := hgm
  refine ⟨?_, ?_, ?_, ?_, ?_⟩
  · rw [hds, fillDaily_length, dailySums_length]
  · intro x hx
    rw [hds] at hx
    simp only [fillDaily] at hx
    obtain ⟨y, hy, hxy⟩ := List.mem_map.mp hx
    subst hxy
    cases y with
    | none =>
      show (meanOpt (prefill (maskZeros (dailySums l)))).isSome = true
      rw [hg]
      rfl
    | some a => rfl
  · intro i v' hi hv'0
    have hlt : i < (dailySums l).length := get?_some_lt hi
    have hs1 : (maskZeros (dailySums l)).get? i = some (some v') := by
      rw [maskZeros_get?, hi]
      show some (if v' = 0 then none else some v') = some (some v')
      rw [if_neg hv'0]
    rw [hds, fillDaily_get?,
      prefill_get? _ _ (by rw [maskZeros_length]; exact hlt), hs1]
    rfl
  · intro i m hi hm
    have hlt : i < (dailySums l).length := get?_some_lt hi
    have hs1 : (maskZeros (dailySums l)).get? i = some none := by
      rw [maskZeros_get?, hi]
      show some (if (0:ℚ) = 0 then none else some 0) = some none
      rw [if_pos rfl]
    rw [hds, fillDaily_get?,
      prefill_get? _ _ (by rw [maskZeros_length]; exact hlt), hs1, hm]
    rfl
  · intro i hi hroll
    have hlt : i < (dailySums l).length := get?_some_lt hi
    have hs1 : (maskZeros (dailySums l)).get? i = some none := by
      rw [maskZeros_get?, hi]
      show some (if (0:ℚ) = 0 then none else some 0) = some none
      rw [if_pos rfl]
    rw [hds, fillDaily_get?,
      prefill_get? _ _ (by rw [maskZeros_length]; exact hlt), hs1, hroll]
    rfl

/-- A non-empty ledger all of whose day sums are zero: its single
transaction has an unparseable amount. -/
def cexZeroLedger : List Txn := [⟨5, "Food", none, ""⟩]

/-- C6 counterexample at a concrete input: on a ledger whose only day sums
to zero, the day is not imputed by either mean — the global mean of the
all-missing series is missing, so the entry stays unresolved, contradicting
the claim that every zero day is imputed. -/
theorem daily_gap_fill_counterexample :
    cexZeroLedger ≠ []
    ∧ dailySums cexZeroLedger = [0]
    ∧ dailySeries cexZeroLedger = [none]
    ∧ (dailySeries cexZeroLedger).all (fun x => x.isSome) = false := by
  refine ⟨by decide, by decide!, by decide!, by decide!⟩

/-- Transactions on day 1 and day 10 only (dates 0 and 9). -/
def gapLedger : List Txn :=
  [⟨0, "Food", some 10, ""⟩, ⟨9, "Food", some 20, ""⟩]

/-- C6 witness: with transactions on day 1 and day 10 only, the daily series
has 10 contiguous resolved entries; days 2-4 and 7-9 get the rolling mean of
their window (10 resp. 20) and days 5-6, whose 7-wide windows hold no
sample, get the global mean 15. -/
theorem daily_gap_fill_witness :
    gapLedger ≠ []
    ∧ (∃ v ∈ dailySums gapLedger, v ≠ 0)
    ∧ (dailySeries gapLedger).length = maxDate gapLedger - minDate gapLedger + 1
    ∧ (dailySeries gapLedger).all (fun x => x.isSome) = true
    ∧ dailySeries gapLedger = [some 10, some 10, some 10, some 10, some 15,
        some 15, some 20, some 20, some 20, some 20] := by
  have hne : gapLedger ≠ [] := by decide
  have hnz : ∃ v ∈ dailySums gapLedger, v ≠ 0 := ⟨10, by decide!, by decide!⟩
  obtain ⟨ha, hb, _, _, _⟩ := daily_gap_fill gapLedger hne hnz
  exact ⟨hne, hnz, ha, List.all_eq_true.mpr hb, by decide!⟩
